import Mathlib

/- Verification of the synthesis core of the `gradient` repository.

   The repository has two source programs:
   - `main.py`: a hand-tracked theremin.  A detection loop maps hand
     features to a volume, a base frequency and a list of active
     frequencies (shared globals), and a sounddevice callback
     (`audio_callback`) renders phase-continuous sine blocks from them.
   - `Arav/music_sounds.py`: a monophonic MIDI instrument
     (`MusicInstrument`) with `start_note`, `stop_note`, `play_scale`
     and `close`, a per-instrument valid pitch range table
     (`NOTE_RANGES`), and a hold-duration release-velocity formula.

   Times are modelled as rationals, MIDI pitches as integers.  Fallible
   operations (a Python call that would raise) return `Option`:
   `none` models an uncaught exception. -/

/-! ## Chord mapping (main.py, detection loop) -/

/-- Volume from the hand x feature: `vol_min + (vol_max - vol_min) * (1.0 - x)`
    with `vol_min, vol_max = 0.0, 0.7` (main.py lines 144-145). -/
def volumeOf (x : ℚ) : ℚ := 0.0 + (0.7 - 0.0) * (1.0 - x)

/-- Base frequency from the hand y feature:
    `freq_min + (freq_max - freq_min) * (1.0 - y)` with
    `freq_min, freq_max = 200.0, 800.0` (main.py lines 149-150). -/
def baseFreqOf (y : ℚ) : ℚ := 200.0 + (800.0 - 200.0) * (1.0 - y)

/-- Active frequencies from the extended-finger count and the base
    frequency (main.py lines 153-178): one finger gives a single note,
    two give a perfect fifth dyad, a fist (zero) gives the tetrad
    base, base*1.26, base*1.50, base*2.00, anything else falls back to
    a single note. -/
def chordOf (extended : ℕ) (base_freq : ℚ) : List ℚ :=
  if extended = 1 then [base_freq]
  else if extended = 2 then [base_freq, base_freq * 1.5]
  else if extended = 0 then
    [base_freq, base_freq * 1.26, base_freq * 1.50, base_freq * 2.00]
  else [base_freq]

/-- One pass of the detection branch (main.py lines 124-182): a detected
    hand with `extended` fingers at height `y` yields `chordOf` at the
    mapped base frequency; no detected hand yields the empty list. -/
def detectFrequencies : Option (ℕ × ℚ) → List ℚ
  | none => []
  | some (extended, y) => chordOf extended (baseFreqOf y)

/-! ## Shared control state (main.py globals `active_frequencies`, `volume`) -/

/-- The shared mutable globals read by the audio callback
    (main.py lines 11-14). -/
structure ControlState where
  active_frequencies : List ℚ
  volume : ℚ
deriving DecidableEq

/-- Initial values of the globals: no frequencies, volume 0.3
    (main.py lines 11 and 14). -/
def initControl : ControlState := ⟨[], 0.3⟩

/-- One atomic store performed by the detection loop.  The loop body
    assigns `volume` (line 145) and `active_frequencies`
    (lines 155-182) in two separate statements; each single assignment
    is an atomic reference store, but the pair is not. -/
inductive WriteStep where
  | setVolume : ℚ → WriteStep
  | setFrequencies : List ℚ → WriteStep
deriving DecidableEq

/-- Effect of one store on the shared state. -/
def applyStep (s : ControlState) : WriteStep → ControlState
  | WriteStep.setVolume v => ⟨s.active_frequencies, v⟩
  | WriteStep.setFrequencies fs => ⟨fs, s.volume⟩

/-- Shared state after a sequence of stores; a snapshot taken by the
    audio callback after any prefix of the stores observes this state. -/
def runSteps (s : ControlState) (steps : List WriteStep) : ControlState :=
  steps.foldl applyStep s

/-- The two stores performed by one detected-hand iteration of the
    detection loop, in source order: volume first (line 145), then
    the frequency list (lines 155-182). -/
def publishSteps (v : ℚ) (fs : List ℚ) : List WriteStep :=
  [WriteStep.setVolume v, WriteStep.setFrequencies fs]

/-! ## Oscillator bank (main.py, `audio_callback`) -/

/-- Sample rate of the theremin variant (main.py line 10). -/
noncomputable def SAMPLE_RATE : ℝ := 96000

/-- Value of one output sample at absolute sample index `k`: the sum
    over the active frequencies of `volume * sin(2*pi*freq * (k / SAMPLE_RATE))`
    (main.py lines 27-34). -/
noncomputable def mixSample (freqs : List ℝ) (vol : ℝ) (k : ℕ) : ℝ :=
  (freqs.map (fun freq => vol * Real.sin (2 * Real.pi * freq * ((k : ℝ) / SAMPLE_RATE)))).sum

/-- The block of `frames` samples written to `outdata` for phase
    accumulator value `t0`: sample `n` is taken at absolute index
    `t0 + n` (main.py lines 27-36). -/
noncomputable def renderBlock (freqs : List ℝ) (vol : ℝ) (t0 frames : ℕ) : List ℝ :=
  (List.range frames).map (fun n => mixSample freqs vol (t0 + n))

/-- One invocation of the sounddevice callback: renders the block and
    advances the phase accumulator by `frames` (main.py lines 19-39). -/
noncomputable def audio_callback (freqs : List ℝ) (vol : ℝ) (t0 frames : ℕ) :
    List ℝ × ℕ :=
  (renderBlock freqs vol t0 frames, t0 + frames)

/-- Initial value of the phase accumulator `audio_callback.t0`
    (main.py line 41). -/
def initT0 : ℕ := 0

/-- A run of consecutive callback invocations with the control
    parameters held constant: returns the concatenation of the emitted
    blocks and the final phase accumulator. -/
noncomputable def renderRun (freqs : List ℝ) (vol : ℝ) : ℕ → List ℕ → List ℝ × ℕ
  | t0, [] => ([], t0)
  | t0, frames :: rest =>
    let blk := audio_callback freqs vol t0 frames
    let restRun := renderRun freqs vol blk.2 rest
    (blk.1 ++ restRun.1, restRun.2)

/-! ## Monophonic MIDI instrument (Arav/music_sounds.py) -/

/-- The list `[lo, lo+1, ..., hi-1]` of pitches, Python `range(lo, hi)`. -/
def intRange (lo hi : ℕ) : List ℤ :=
  (List.range' lo (hi - lo)).map (fun n => (n : ℤ))

/-- Valid pitch ranges per instrument program number
    (music_sounds.py lines 18-25); `none` models a `KeyError` for a
    number that is not a key of the dictionary. -/
def NOTE_RANGES (instrument : ℕ) : Option (List ℤ) :=
  if instrument = 1 then some (intRange 21 109)
  else if instrument = 5 then some (intRange 28 103)
  else if instrument = 25 then some (intRange 40 84)
  else if instrument = 41 then some (intRange 55 100)
  else if instrument = 57 then some (intRange 55 82)
  else if instrument = 74 then some (intRange 60 96)
  else none

/-- The mutable fields of `MusicInstrument` that the note lifecycle
    reads and writes (music_sounds.py lines 46-50; the `active_notes`
    dictionary is initialised but never used again and is omitted). -/
structure NoteState where
  current_instrument : ℕ
  current_note : Option ℤ
  start_time : Option ℚ
deriving DecidableEq

/-- State of a freshly constructed `MusicInstrument`: piano, no note,
    no start time (music_sounds.py lines 46-50). -/
def initState : NoteState := ⟨1, none, none⟩

/-- MIDI messages produced by the note lifecycle: `note_on`/`note_off`
    with a pitch and a velocity. -/
inductive MidiMsg where
  | noteOn : ℤ → ℤ → MidiMsg
  | noteOff : ℤ → ℤ → MidiMsg
deriving DecidableEq

/-- Python `int()` on a rational: truncation toward zero. -/
def pyInt (q : ℚ) : ℤ := if 0 ≤ q then ⌊q⌋ else ⌈q⌉

/-- Release velocity from the hold duration:
    `min(127, int(64 + (duration * 30)))` (music_sounds.py line 94). -/
def stopVelocity (duration : ℚ) : ℤ := min 127 (pyInt (64 + duration * 30))

/-- `stop_note` (music_sounds.py lines 89-101) at current time `now`:
    a no-op when no note is sounding; otherwise emits a `note_off` for
    the sounding pitch with the duration-based velocity and clears the
    note and its start time.  Returns `none` when `start_time` is unset
    while a note is marked sounding (Python would raise a `TypeError`
    in the subtraction); the invariant proved below shows this never
    happens in reachable states. -/
def stop_note (now : ℚ) (s : NoteState) : Option (NoteState × List MidiMsg) :=
  match s.current_note with
  | none => some (s, [])
  | some n =>
    match s.start_time with
    | none => none
    | some t =>
      some (⟨s.current_instrument, none, none⟩,
        [MidiMsg.noteOff n (stopVelocity (now - t))])

/-- `start_note` (music_sounds.py lines 74-87) at current time `now`:
    an out-of-range pitch only prints a message (no state change, no
    MIDI message); a pitch equal to the sounding one is ignored;
    otherwise any sounding note is stopped first and a `note_on` with
    velocity 64 is emitted for the new pitch. -/
def start_note (now : ℚ) (note : ℤ) (s : NoteState) : Option (NoteState × List MidiMsg) :=
  match NOTE_RANGES s.current_instrument with
  | none => none
  | some rng =>
    if note ∈ rng then
      if s.current_note ≠ some note then
        match s.current_note with
        | none =>
          some (⟨s.current_instrument, some note, some now⟩, [MidiMsg.noteOn note 64])
        | some _ =>
          match stop_note now s with
          | none => none
          | some (s1, msgs) =>
            some (⟨s1.current_instrument, some note, some now⟩,
              msgs ++ [MidiMsg.noteOn note 64])
      else some (s, [])
    else some (s, [])

/-- Interval table of the major scale (music_sounds.py line 105). -/
def major_scale : List ℤ := [0, 2, 4, 5, 7, 9, 11, 12]

/-- Interval table of the minor scale (music_sounds.py line 106). -/
def minor_scale : List ℤ := [0, 2, 3, 5, 7, 8, 10, 12]

/-- Python `str.lower()` restricted to ASCII: lowercases every
    character of the string. -/
def pyLower (s : String) : String := String.mk (s.data.map Char.toLower)

/-- Scale selection (music_sounds.py line 108):
    `major_scale if scale_type.lower() == "major" else minor_scale`. -/
def scaleOf (scale_type : String) : List ℤ :=
  if pyLower scale_type = ("major") then major_scale else minor_scale

/-- The loop body of `play_scale` over the remaining intervals
    (music_sounds.py lines 110-114).  `tOn k` and `tOff k` are the
    clock values at the start and stop calls of step `k` (the source
    sleeps 0.5 s between them). -/
def playSteps (tOn tOff : ℕ → ℚ) (base : ℤ) :
    List ℤ → ℕ → NoteState → Option (NoteState × List MidiMsg)
  | [], _, s => some (s, [])
  | interval :: rest, k, s =>
    match start_note (tOn k) (base + interval) s with
    | none => none
    | some (s1, m1) =>
      match stop_note (tOff k) s1 with
      | none => none
      | some (s2, m2) =>
        match playSteps tOn tOff base rest (k + 1) s2 with
        | none => none
        | some (s3, m3) => some (s3, m1 ++ m2 ++ m3)

/-- `play_scale` (music_sounds.py lines 103-114): drives the note
    lifecycle through a start/stop pair for each interval of the
    selected scale, offset from the starting pitch. -/
def play_scale (tOn tOff : ℕ → ℚ) (s : NoteState) (start : ℤ) (scale_type : String) :
    Option (NoteState × List MidiMsg) :=
  playSteps tOn tOff start (scaleOf scale_type) 0 s

/-- `close` (music_sounds.py lines 249-252): stops any sounding note
    (flushing its `note_off`) before the MIDI port is closed; the port
    itself is outside the model. -/
def closeInstrument (now : ℚ) (s : NoteState) : Option (NoteState × List MidiMsg) :=
  stop_note now s

/-- Well-formedness of the lifecycle state: the start timestamp is set
    exactly when a note is sounding.  Together with the fact that
    `current_note` is a single optional field (so at most one pitch can
    be marked sounding), this is the state invariant of the spec. -/
def wf (s : NoteState) : Prop := s.current_note = none ↔ s.start_time = none

instance (s : NoteState) : Decidable (wf s) := by unfold wf; infer_instance

/-! ## Theorems -/

/-- C3: the continuous chord mapping is a pure function of the hand
    features: volume = 0.0 + 0.7*(1-x) and baseFrequency = 200 + 600*(1-y);
    extended-finger mode 0 yields the tetrad base, base*1.26, base*1.50,
    base*2.00, mode 1 yields the singleton, mode 2 the perfect-fifth
    dyad, every other mode falls back to the singleton, and no detection
    yields the empty set; concretely at base frequency 440 mode 0 yields
    440, 554.4, 660, 880, mode 1 yields 440, mode 2 yields 440, 660. -/
theorem c3_chord_mapping :
    (∀ x : ℚ, volumeOf x = 0 + 0.7 * (1 - x)) ∧
    (∀ y : ℚ, baseFreqOf y = 200 + 600 * (1 - y)) ∧
    (∀ f : ℚ, chordOf 0 f = [f, f * 1.26, f * 1.5, f * 2]) ∧
    (∀ f : ℚ, chordOf 1 f = [f]) ∧
    (∀ f : ℚ, chordOf 2 f = [f, f * 1.5]) ∧
    (∀ (m : ℕ) (f : ℚ), m ≠ 0 → m ≠ 1 → m ≠ 2 → chordOf m f = [f]) ∧
    detectFrequencies none = [] ∧
    chordOf 0 440 = [440, 554.4, 660, 880] ∧
    chordOf 1 440 = [440] ∧
    chordOf 2 440 = [440, 660] := by
  refine ⟨fun x => by norm_num [volumeOf], fun y => by norm_num [baseFreqOf],
    fun f => by norm_num [chordOf], fun f => by norm_num [chordOf],
    fun f => by norm_num [chordOf],
    fun m f h0 h1 h2 => by simp [chordOf, h0, h1, h2],
    rfl, by norm_num [chordOf], by norm_num [chordOf], by norm_num [chordOf]⟩

/-- C3 witness: the fallback branch of the chord mapping instantiated
    at mode 5 and base frequency 440. -/
theorem c3_witness :
    ((5 : ℕ) ≠ 0 ∧ (5 : ℕ) ≠ 1 ∧ (5 : ℕ) ≠ 2) ∧ chordOf 5 440 = [440] :=
  ⟨⟨by decide, by decide, by decide⟩,
    c3_chord_mapping.2.2.2.2.2.1 5 440 (by decide) (by decide) (by decide)⟩

/-- C2 (amended): a note started at time t and stopped at time t+d with
    d ≥ 0 seconds yields a note-off whose velocity is
    min(127, ⌊64 + 30*d⌋) — Python int() truncation, not rounding; in
    particular d = 0 yields 64 and d = 3 yields 127 (saturated). -/
theorem c2_stop_velocity : ∀ (s : NoteState) (p : ℤ) (t d : ℚ),
    s.current_note = some p → s.start_time = some t → 0 ≤ d →
    stop_note (t + d) s =
      some (⟨s.current_instrument, none, none⟩,
        [MidiMsg.noteOff p (min 127 ⌊(64 : ℚ) + 30 * d⌋)]) ∧
    min 127 ⌊(64 : ℚ) + 30 * (0 : ℚ)⌋ = 64 ∧
    min 127 ⌊(64 : ℚ) + 30 * (3 : ℚ)⌋ = 127 := by
  intro s p t d hn ht hd
  refine ⟨?_, by norm_num, by norm_num⟩
  have h1 : t + d - t = d := by ring
  have h2 : (0 : ℚ) ≤ 64 + d * 30 := by nlinarith
  have hvel : stopVelocity d = min 127 ⌊(64 : ℚ) + 30 * d⌋ := by
    unfold stopVelocity pyInt
    rw [if_pos h2, mul_comm d 30]
  simp only [stop_note, hn, ht]
  rw [h1, hvel]

/-- C2 witness: the amended velocity formula instantiated at start time
    5 and hold duration 0. -/
theorem c2_witness :
    ((⟨1, some 60, some 5⟩ : NoteState).current_note = some 60 ∧
     (⟨1, some 60, some 5⟩ : NoteState).start_time = some 5 ∧ (0 : ℚ) ≤ 0) ∧
    stop_note ((5 : ℚ) + 0) ⟨1, some 60, some 5⟩ =
      some (⟨1, none, none⟩, [MidiMsg.noteOff 60 (min 127 ⌊(64 : ℚ) + 30 * (0 : ℚ)⌋)]) :=
  ⟨⟨rfl, rfl, le_refl 0⟩,
    (c2_stop_velocity ⟨1, some 60, some 5⟩ 60 5 0 rfl rfl (le_refl 0)).1⟩

/-- C2 counterexample: at hold duration d = 3/100 the code emits
    velocity min(127, int(64.9)) = 64, while the claimed formula
    min(127, round(64 + 30*d)) gives 65, so the claim as stated is
    false at this input. -/
theorem c2_round_counterexample :
    stop_note ((0 : ℚ) + 3/100) ⟨1, some 60, some 0⟩ =
      some (⟨1, none, none⟩, [MidiMsg.noteOff 60 64]) ∧
    min 127 (round ((64 : ℚ) + 30 * (3/100))) = 65 ∧
    (64 : ℤ) ≠ min 127 (round ((64 : ℚ) + 30 * (3/100))) := by
  refine ⟨?_, by norm_num [round_eq], by norm_num [round_eq]⟩
  norm_num [stop_note, stopVelocity, pyInt]

/-- C6: starting a pitch outside the active instrument's valid range is
    rejected: no MIDI message is produced and the note state (current
    pitch and start time) is unchanged, including while another note is
    sounding. -/
theorem c6_out_of_range : ∀ (now : ℚ) (p : ℤ) (s : NoteState) (rng : List ℤ),
    NOTE_RANGES s.current_instrument = some rng → p ∉ rng →
    start_note now p s = some (s, []) := by
  intro now p s rng hr hp
  simp [start_note, hr, hp]

/-- C6 witness: pitch 200 is outside the piano range, and requesting it
    while note 60 is sounding changes nothing and sends nothing. -/
theorem c6_witness :
    (NOTE_RANGES (⟨1, some 60, some 0⟩ : NoteState).current_instrument =
       some (intRange 21 109) ∧ (200 : ℤ) ∉ intRange 21 109) ∧
    start_note 0 200 ⟨1, some 60, some 0⟩ = some (⟨1, some 60, some 0⟩, []) :=
  ⟨⟨rfl, by decide⟩,
    c6_out_of_range 0 200 ⟨1, some 60, some 0⟩ (intRange 21 109) rfl (by decide)⟩

/-- C9 counterexample: the detection loop publishes volume and frequency
    list in two separate stores, so a snapshot taken between the two
    stores of the second publish observes the frequencies of the first
    publish together with the volume of the second — a state that
    matches neither complete publish nor the initial state.  The
    whole-struct-atomic-swap claim is therefore false of this code. -/
theorem c9_atomicity_counterexample :
    runSteps initControl (publishSteps (1/2) [440]) = ⟨[440], 1/2⟩ ∧
    publishSteps (1/5) [550] =
      [WriteStep.setVolume (1/5), WriteStep.setFrequencies [550]] ∧
    runSteps initControl (publishSteps (1/2) [440] ++ [WriteStep.setVolume (1/5)]) =
      ⟨[440], 1/5⟩ ∧
    (⟨[440], 1/5⟩ : ControlState) ≠ initControl ∧
    (⟨[440], 1/5⟩ : ControlState) ≠ ⟨[440], 1/2⟩ ∧
    (⟨[440], 1/5⟩ : ControlState) ≠ ⟨[550], 1/5⟩ := by
  refine ⟨rfl, rfl, rfl, ?_, ?_, ?_⟩
  · simp [initControl, ControlState.mk.injEq]
  · norm_num [ControlState.mk.injEq]
  · norm_num [ControlState.mk.injEq]

/-- C9 (amended): the control pair is swapped field-by-field, not
    atomically: an uninterrupted publish leaves both fields from the
    same publish, but a snapshot taken after the volume store and
    before the frequency store observes the new volume together with
    the previous frequency list. -/
theorem c9_field_by_field : ∀ (s : ControlState) (v : ℚ) (fs : List ℚ),
    runSteps s (publishSteps v fs) = ⟨fs, v⟩ ∧
    runSteps s ((publishSteps v fs).take 1) = ⟨s.active_frequencies, v⟩ := by
  intro s v fs
  exact ⟨rfl, rfl⟩

/-- C4: monophonic re-trigger discipline of `start_note` for in-range
    pitches: from Idle exactly one note-on with velocity 64 is emitted;
    re-requesting the sounding pitch is a no-op; requesting a different
    pitch emits exactly one note-off for the old pitch (duration-based
    velocity) followed by exactly one note-on for the new pitch, and the
    single-slot state keeps at most one note sounding. -/
theorem c4_monophony : ∀ (now : ℚ) (s : NoteState) (rng : List ℤ),
    NOTE_RANGES s.current_instrument = some rng →
    (∀ p : ℤ, p ∈ rng → s.current_note = none →
       start_note now p s =
         some (⟨s.current_instrument, some p, some now⟩, [MidiMsg.noteOn p 64])) ∧
    (∀ p : ℤ, p ∈ rng → s.current_note = some p →
       start_note now p s = some (s, [])) ∧
    (∀ (p q : ℤ) (t : ℚ), q ∈ rng → q ≠ p →
       s.current_note = some p → s.start_time = some t →
       start_note now q s =
         some (⟨s.current_instrument, some q, some now⟩,
           [MidiMsg.noteOff p (stopVelocity (now - t)), MidiMsg.noteOn q 64])) := by
  intro now s rng hr
  refine ⟨?_, ?_, ?_⟩
  · intro p hp hn
    simp [start_note, hr, hp, hn]
  · intro p hp hn
    simp [start_note, hr, hp, hn]
  · intro p q t hq hqp hn ht
    simp [start_note, stop_note, hr, hq, hn, ht, Ne.symm hqp]

/-- C4 witness: on the piano, starting 60 from Idle, re-requesting 60,
    and then starting 64 while 60 sounds. -/
theorem c4_witness :
    ((60 : ℤ) ∈ intRange 21 109 ∧ (64 : ℤ) ∈ intRange 21 109 ∧ (64 : ℤ) ≠ 60) ∧
    start_note 0 60 initState = some (⟨1, some 60, some 0⟩, [MidiMsg.noteOn 60 64]) ∧
    start_note 1 60 ⟨1, some 60, some 0⟩ = some (⟨1, some 60, some 0⟩, []) ∧
    start_note 2 64 ⟨1, some 60, some 0⟩ =
      some (⟨1, some 64, some 2⟩,
        [MidiMsg.noteOff 60 (stopVelocity (2 - 0)), MidiMsg.noteOn 64 64]) :=
  ⟨⟨by decide, by decide, by decide⟩,
    (c4_monophony 0 initState (intRange 21 109) rfl).1 60 (by decide) rfl,
    (c4_monophony 1 ⟨1, some 60, some 0⟩ (intRange 21 109) rfl).2.1 60 (by decide) rfl,
    (c4_monophony 2 ⟨1, some 60, some 0⟩ (intRange 21 109) rfl).2.2 60 64 0
      (by decide) (by decide) rfl rfl⟩

/-- Auxiliary: `stop_note` preserves the state invariant. -/
theorem wf_stop_note : ∀ (now : ℚ) (s s1 : NoteState) (m : List MidiMsg),
    wf s → stop_note now s = some (s1, m) → wf s1 := by
  intro now s s1 m hs h
  unfold stop_note at h
  split at h
  · simp at h
    obtain ⟨rfl, rfl⟩ := h
    exact hs
  · split at h
    · exact absurd h (by simp)
    · simp at h
      obtain ⟨rfl, rfl⟩ := h
      simp [wf]

/-- Auxiliary: `start_note` preserves the state invariant. -/
theorem wf_start_note : ∀ (now : ℚ) (p : ℤ) (s s1 : NoteState) (m : List MidiMsg),
    wf s → start_note now p s = some (s1, m) → wf s1 := by
  intro now p s s1 m hs h
  unfold start_note at h
  split at h
  · exact absurd h (by simp)
  · split at h
    · split at h
      · split at h
        · simp at h
          obtain ⟨rfl, rfl⟩ := h
          simp [wf]
        · split at h
          · exact absurd h (by simp)
          · simp at h
            obtain ⟨rfl, rfl⟩ := h
            simp [wf]
      · simp at h
        obtain ⟨rfl, rfl⟩ := h
        exact hs
    · simp at h
      obtain ⟨rfl, rfl⟩ := h
      exact hs

/-- Auxiliary: the `play_scale` loop preserves the state invariant. -/
theorem wf_playSteps : ∀ (tOn tOff : ℕ → ℚ) (base : ℤ) (ivs : List ℤ) (k : ℕ)
    (s s1 : NoteState) (m : List MidiMsg),
    wf s → playSteps tOn tOff base ivs k s = some (s1, m) → wf s1 := by
  intro tOn tOff base ivs
  induction ivs with
  | nil =>
    intro k s s1 m hs h
    simp [playSteps] at h
    obtain ⟨rfl, rfl⟩ := h
    exact hs
  | cons iv rest ih =>
    intro k s s1 m hs h
    simp only [playSteps] at h
    split at h
    · exact absurd h (by simp)
    · rename_i sa ma heqa
      split at h
      · exact absurd h (by simp)
      · rename_i sb mb heqb
        split at h
        · exact absurd h (by simp)
        · rename_i sc mc heqc
          simp at h
          obtain ⟨rfl, rfl⟩ := h
          exact ih (k + 1) sb sc mc
            (wf_stop_note (tOff k) sa sb mb
              (wf_start_note (tOn k) (base + iv) s sa ma hs heqa) heqb)
            heqc

/-- C8: state invariant of the note lifecycle, preserved by every
    operation from the initial state: the single `current_note` slot
    means at most one pitch is sounding at any time, and the start
    timestamp is set exactly when a note is sounding and unset exactly
    when the model is Idle (`wf`); `start_note`, `stop_note`,
    `play_scale` and `close` all preserve `wf`, and the initial state
    satisfies it. -/
theorem c8_state_invariant :
    wf initState ∧
    (∀ (now : ℚ) (p : ℤ) (s s1 : NoteState) (m : List MidiMsg),
      wf s → start_note now p s = some (s1, m) → wf s1) ∧
    (∀ (now : ℚ) (s s1 : NoteState) (m : List MidiMsg),
      wf s → stop_note now s = some (s1, m) → wf s1) ∧
    (∀ (tOn tOff : ℕ → ℚ) (base : ℤ) (scale_type : String)
       (s s1 : NoteState) (m : List MidiMsg),
      wf s → play_scale tOn tOff s base scale_type = some (s1, m) → wf s1) ∧
    (∀ (now : ℚ) (s s1 : NoteState) (m : List MidiMsg),
      wf s → closeInstrument now s = some (s1, m) → wf s1) :=
  ⟨by simp [wf, initState], wf_start_note, wf_stop_note,
    fun tOn tOff base scale_type s s1 m hs h =>
      wf_playSteps tOn tOff base (scaleOf scale_type) 0 s s1 m hs h,
    fun now s s1 m hs h => wf_stop_note now s s1 m hs h⟩

/-- C8 witness: the invariant holds in the initial state and is carried
    to the state reached by starting note 60 there. -/
theorem c8_witness :
    (wf initState ∧
     start_note 0 60 initState = some (⟨1, some 60, some 0⟩, [MidiMsg.noteOn 60 64])) ∧
    wf ⟨1, some 60, some 0⟩ :=
  ⟨⟨by simp [wf, initState], by decide⟩,
    c8_state_invariant.2.1 0 60 initState ⟨1, some 60, some 0⟩ [MidiMsg.noteOn 60 64]
      (by simp [wf, initState]) (by decide)⟩
/-- Auxiliary: from an Idle well-formed state, the `play_scale` loop
    never fails, returns to the same Idle state, and emits a start/stop
    message pair for every in-range degree and nothing for out-of-range
    degrees, in order. -/
theorem playSteps_run (tOn tOff : ℕ → ℚ) (base : ℤ) (ivs : List ℤ) (k : ℕ)
    (inst : ℕ) (rng : List ℤ) (hr : NOTE_RANGES inst = some rng) :
    playSteps tOn tOff base ivs k ⟨inst, none, none⟩ =
      some (⟨inst, none, none⟩,
        (List.enumFrom k ivs).flatMap (fun kiv =>
          if base + kiv.2 ∈ rng then
            [MidiMsg.noteOn (base + kiv.2) 64,
             MidiMsg.noteOff (base + kiv.2) (stopVelocity (tOff kiv.1 - tOn kiv.1))]
          else [])) := by
  induction ivs generalizing k with
  | nil => simp [playSteps]
  | cons iv rest ih =>
    by_cases hp : base + iv ∈ rng
    · simp [playSteps, start_note, stop_note, hr, hp, ih]
    · simp [playSteps, start_note, stop_note, hr, hp, ih]

/-- Auxiliary: the value component of an `enumFrom` member is a member
    of the underlying list. -/
theorem snd_mem_enumFrom {α : Type} : ∀ (l : List α) (n : ℕ) (x : ℕ × α),
    x ∈ List.enumFrom n l → x.2 ∈ l := by
  intro l
  induction l with
  | nil => simp
  | cons a l ih =>
    intro n x hx
    rcases (by simpa using hx : x = (n, a) ∨ x ∈ List.enumFrom (n + 1) l) with h | h
    · simp [h]
    · simp [ih (n + 1) x h]

/-- Auxiliary: a flatMap whose guard holds on every element of the list
    drops the guard. -/
theorem flatMap_if_all {α β : Type} (l : List α) (P : α → Prop) [DecidablePred P]
    (f : α → List β) (hall : ∀ x ∈ l, P x) :
    (l.flatMap (fun x => if P x then f x else [])) = l.flatMap f := by
  induction l with
  | nil => simp
  | cons a l ih =>
    simp [hall a (by simp), ih (fun x hx => hall x (by simp [hx]))]

/-- C10: when a scale degree falls outside the active instrument's
    valid range, `play_scale` emits no note-on and no note-off for that
    degree (the paired stop call is a no-op) and continues with the
    remaining degrees; from an Idle state the whole sequence always
    returns normally (never raises), for any starting pitch. -/
theorem c10_scale_skips_out_of_range : ∀ (tOn tOff : ℕ → ℚ) (s : NoteState)
    (rng : List ℤ) (base : ℤ) (scale_type : String),
    NOTE_RANGES s.current_instrument = some rng →
    s.current_note = none → s.start_time = none →
    play_scale tOn tOff s base scale_type =
      some (s, (scaleOf scale_type).enum.flatMap (fun kiv =>
        if base + kiv.2 ∈ rng then
          [MidiMsg.noteOn (base + kiv.2) 64,
           MidiMsg.noteOff (base + kiv.2) (stopVelocity (tOff kiv.1 - tOn kiv.1))]
        else [])) := by
  intro tOn tOff s rng base scale_type hr hn ht
  obtain ⟨inst, cn, st⟩ := s
  simp only at hr hn ht
  subst hn
  subst ht
  simpa [play_scale, List.enum] using
    playSteps_run tOn tOff base (scaleOf scale_type) 0 inst rng hr

/-- C10 witness: major scale from pitch 100 on the piano (top of range
    108): the degrees 100, 102, 104, 105, 107 sound as start/stop pairs
    and the degrees 109, 111, 112 are skipped; the call returns
    normally. -/
theorem c10_witness :
    (NOTE_RANGES initState.current_instrument = some (intRange 21 109) ∧
     initState.current_note = none ∧ initState.start_time = none) ∧
    play_scale (fun _ => (0 : ℚ)) (fun _ => (0 : ℚ)) initState 100 ("major") =
      some (initState, (scaleOf ("major")).enum.flatMap (fun kiv =>
        if (100 : ℤ) + kiv.2 ∈ intRange 21 109 then
          [MidiMsg.noteOn (100 + kiv.2) 64,
           MidiMsg.noteOff (100 + kiv.2) (stopVelocity ((0 : ℚ) - 0))]
        else [])) :=
  ⟨⟨rfl, rfl, rfl⟩,
    c10_scale_skips_out_of_range (fun _ => 0) (fun _ => 0) initState
      (intRange 21 109) 100 ("major") rfl rfl rfl⟩

/-- C7: the scale sequencer maps a selector whose lowercase form is
    "major" to the offsets 0,2,4,5,7,9,11,12 and any other selector to
    the minor offsets 0,2,3,5,7,8,10,12, and drives the note lifecycle
    through a start-then-stop pair for each offset added to the starting
    pitch, strictly in order; starting pitch 60 with the major scale
    gives the pitch sequence 60,62,64,65,67,69,71,72. -/
theorem c7_scale_sequence :
    (∀ scale_type : String, pyLower scale_type = ("major") →
       scaleOf scale_type = [0, 2, 4, 5, 7, 9, 11, 12]) ∧
    (∀ scale_type : String, pyLower scale_type ≠ ("major") →
       scaleOf scale_type = [0, 2, 3, 5, 7, 8, 10, 12]) ∧
    scaleOf ("MAJOR") = [0, 2, 4, 5, 7, 9, 11, 12] ∧
    (∀ (tOn tOff : ℕ → ℚ) (s : NoteState) (rng : List ℤ) (base : ℤ)
       (scale_type : String),
      NOTE_RANGES s.current_instrument = some rng →
      s.current_note = none → s.start_time = none →
      (∀ iv ∈ scaleOf scale_type, base + iv ∈ rng) →
      play_scale tOn tOff s base scale_type =
        some (s, (scaleOf scale_type).enum.flatMap (fun kiv =>
          [MidiMsg.noteOn (base + kiv.2) 64,
           MidiMsg.noteOff (base + kiv.2) (stopVelocity (tOff kiv.1 - tOn kiv.1))]))) ∧
    (scaleOf ("major")).map (fun iv => 60 + iv) = [60, 62, 64, 65, 67, 69, 71, 72] := by
  refine ⟨fun scale_type h => by simp [scaleOf, h, major_scale],
    fun scale_type h => by simp [scaleOf, h, minor_scale],
    by decide, ?_, by decide⟩
  intro tOn tOff s rng base scale_type hr hn ht hall
  obtain ⟨inst, cn, st⟩ := s
  simp only at hr hn ht
  subst hn
  subst ht
  have h := playSteps_run tOn tOff base (scaleOf scale_type) 0 inst rng hr
  have hcong :
      (List.enumFrom 0 (scaleOf scale_type)).flatMap (fun kiv =>
        if base + kiv.2 ∈ rng then
          [MidiMsg.noteOn (base + kiv.2) 64,
           MidiMsg.noteOff (base + kiv.2) (stopVelocity (tOff kiv.1 - tOn kiv.1))]
        else []) =
      (List.enumFrom 0 (scaleOf scale_type)).flatMap (fun kiv =>
        [MidiMsg.noteOn (base + kiv.2) 64,
         MidiMsg.noteOff (base + kiv.2) (stopVelocity (tOff kiv.1 - tOn kiv.1))]) :=
    flatMap_if_all _ _ _
      (fun kiv hkiv => hall kiv.2 (snd_mem_enumFrom (scaleOf scale_type) 0 kiv hkiv))
  rw [play_scale, List.enum] at *
  rw [h, hcong]

/-- C7 witness: the lifecycle-driving statement instantiated on the
    piano at starting pitch 60 with the major scale, every degree in
    range. -/
theorem c7_witness :
    (NOTE_RANGES initState.current_instrument = some (intRange 21 109) ∧
     initState.current_note = none ∧ initState.start_time = none ∧
     (∀ iv ∈ scaleOf ("major"), (60 : ℤ) + iv ∈ intRange 21 109)) ∧
    play_scale (fun _ => (0 : ℚ)) (fun _ => (0 : ℚ)) initState 60 ("major") =
      some (initState, (scaleOf ("major")).enum.flatMap (fun kiv =>
        [MidiMsg.noteOn (60 + kiv.2) 64,
         MidiMsg.noteOff (60 + kiv.2) (stopVelocity ((0 : ℚ) - 0))])) :=
  ⟨⟨rfl, rfl, rfl, by decide⟩,
    c7_scale_sequence.2.2.2.1 (fun _ => 0) (fun _ => 0) initState (intRange 21 109)
      60 ("major") rfl rfl rfl (by decide)⟩
/-- Auxiliary: a rendered block for a combined frame count splits into
    two consecutive blocks with the phase accumulator advanced. -/
theorem renderBlock_split (freqs : List ℝ) (vol : ℝ) (t0 m k : ℕ) :
    renderBlock freqs vol t0 (m + k) =
      renderBlock freqs vol t0 m ++ renderBlock freqs vol (t0 + m) k := by
  unfold renderBlock
  rw [List.range_add, List.map_append, List.map_map]
  refine congrArg₂ _ rfl ?_
  apply List.map_congr_left
  intro n _
  simp [Function.comp, Nat.add_assoc]

/-- C1: phase continuity of the oscillator bank: the phase accumulator
    starts at 0, each callback invocation advances it by exactly the
    requested frame count, and for a constant frequency list and volume
    the concatenation of any run of consecutive blocks is identical to a
    single block of the combined frame count rendered from the starting
    accumulator value. -/
theorem c1_phase_continuity :
    initT0 = 0 ∧
    (∀ (freqs : List ℝ) (vol : ℝ) (t0 frames : ℕ),
      (audio_callback freqs vol t0 frames).2 = t0 + frames) ∧
    (∀ (freqs : List ℝ) (vol : ℝ) (t0 : ℕ) (counts : List ℕ),
      renderRun freqs vol t0 counts =
        (renderBlock freqs vol t0 counts.sum, t0 + counts.sum)) := by
  refine ⟨rfl, fun freqs vol t0 frames => rfl, ?_⟩
  intro freqs vol t0 counts
  induction counts generalizing t0 with
  | nil => simp [renderRun, renderBlock]
  | cons m ms ih =>
    simp [renderRun, audio_callback, ih, renderBlock_split, Nat.add_assoc]

/-- C5: the rendered block has exactly the requested length and its
    sample at index n is the un-normalized, un-clipped mono sum over
    the active frequencies of volume * sin(2*pi*freq*(t0+n)/SAMPLE_RATE);
    an empty frequency list yields an all-zero buffer for any volume. -/
theorem c5_render_block :
    (∀ (freqs : List ℝ) (vol : ℝ) (t0 frames : ℕ),
      (renderBlock freqs vol t0 frames).length = frames) ∧
    (∀ (freqs : List ℝ) (vol : ℝ) (t0 frames n : ℕ),
      (renderBlock freqs vol t0 frames)[n]? =
        if n < frames then
          some ((freqs.map (fun freq =>
            vol * Real.sin (2 * Real.pi * freq * (((t0 + n : ℕ) : ℝ) / SAMPLE_RATE)))).sum)
        else none) ∧
    (∀ (vol : ℝ) (t0 frames : ℕ),
      renderBlock [] vol t0 frames = List.replicate frames 0) := by
  refine ⟨fun freqs vol t0 frames => by simp [renderBlock], ?_, ?_⟩
  · intro freqs vol t0 frames n
    by_cases h : n < frames
    · simp [renderBlock, mixSample, List.getElem?_map, List.getElem?_range, h]
    · rw [if_neg h]
      apply List.getElem?_eq_none
      simpa [renderBlock] using not_lt.mp h
  · intro vol t0 frames
    simp [renderBlock, mixSample]
